import Mathlib

/-!
Verification development for the `positionsys` repository.

The definitions below are a shallow embedding of the Python sources:

* `src/src/constants/constants.py` — enums and module constants;
* `src/src/position/position.py` — `Position`, `StopLossPosition`,
  `PositionHub`, `PositionManagement`;
* `src/src/smabot/sma_bot.py` together with `src/src/bot/bot.py` — the
  SMA crossover bot;
* `BasicAll.py` and `TextNeuerAlgos.py` — the market-structure detectors.

Python floats are modelled as rationals (`ℚ`); the comparisons and
arithmetic used by the sources are exact on the inputs of interest.
Methods that can raise are embedded as functions into `Except PyErr _`.
Python raises some of its errors at call-binding time (a call with a
missing required argument or an unexpected keyword argument raises
`TypeError` before the callee body runs, and reading an attribute that
was never assigned raises `AttributeError`); such raises are embedded as
`Except.error` at the corresponding program point, with a comment citing
the source line.
-/

/-- Python exception values, by class, with the message text. -/
inductive PyErr where
  | valueError (msg : String)
  | typeError (msg : String)
  | runtimeError (msg : String)
  | attributeError (msg : String)
  | indexError (msg : String)
  | exception (msg : String)
deriving DecidableEq, Repr

/-- `src/src/data/data.py`, `class TimeFrame(Enum)`. -/
inductive TimeFrame where
  | ONEDAY | ONEHOUR | FIVEMINUTES | FIFTEENMINUTES | ONEMINUTE | FOURHOURS
deriving DecidableEq, Repr

/-- `src/src/constants/constants.py`, `class OrderType(Enum)`. -/
inductive OrderType where
  | LONG | SHORT
deriving DecidableEq, Repr

/-- `src/src/constants/constants.py`, `class PositionType(Enum)`. -/
inductive PositionType where
  | BASIC | STOP_LOSS | TAKE_PROFIT
deriving DecidableEq, Repr

/-- `src/src/constants/constants.py`, `class BotAction(Enum)`. -/
inductive BotAction where
  | BUY | SELL | HOLD | SKIP
deriving DecidableEq, Repr

/-- `src/src/constants/constants.py`: `SMALLEST_INVEST = 0.01`. -/
def SMALLEST_INVEST : ℚ := 1 / 100

/-- `src/src/constants/constants.py`: `LIMIT = 10000`. -/
def LIMIT : ℚ := 10000

/-- Instance state of `Position` (`src/src/position/position.py`, lines 37-145).

The fields are exactly the attributes `Position.__init__` assigns, plus
`currentIdx`.  `__init__` receives a `currentIdx` parameter but never
stores it on the instance (it is only passed to `mapIndexToTime` for
`createdAt`), so on every instance the attribute is absent; we model the
attribute slot as an `Option ℤ` which the constructor leaves at `none`,
and a read of the absent attribute as `AttributeError`.  `createdAt` and
`closedAt` hold wall-clock `datetime` values derived from
`datetime.now()`; no claim observes them, so they are not modelled. -/
structure Position where
  entry_price : ℚ
  amount : ℚ
  timeFrame : TimeFrame
  orderType : OrderType
  positionType : PositionType
  isOpen : Bool
  close_price : Option ℚ
  currentIdx : Option ℤ
deriving DecidableEq, Repr

/-- `Position.__init__` (lines 77-107): validates `amount`, `timeFrame`
and `entry_price` via the `_set_*` helpers, in that order, then assigns
`isOpen = True`, `closedAt = None`, `orderType`, `positionType = BASIC`,
`close_price = None`.  The `currentIdx` argument is consumed by
`mapIndexToTime` only; `self.currentIdx` is never assigned. -/
def mkPosition (entry_price amount : ℚ) (timeFrame : TimeFrame)
    (orderType : OrderType := OrderType.LONG) (_currentIdx : ℤ := 0) :
    Except PyErr Position :=
  if amount ≤ 0 then
    .error (.valueError "amount has to be bigger than 0")
  else if entry_price ≤ 0 then
    .error (.valueError "entry_price has to be bigger than 0 - otherwise it be odd.")
  else
    .ok { entry_price := entry_price, amount := amount, timeFrame := timeFrame,
          orderType := orderType, positionType := PositionType.BASIC,
          isOpen := true, close_price := none, currentIdx := none }

/-- `Position._check_for_valid_close_price` (lines 50-52): given a float
argument, raises `ValueError` when it is `≤ 0`. -/
def checkForValidClosePrice (value : ℚ) : Except PyErr Unit :=
  if value ≤ 0 then
    .error (.valueError "close_price has to be bigger than 0 - otherwise it be odd.")
  else
    .ok ()

/-- `Position.close` (lines 109-121).  After the price check, an open
position runs `self.isOpen = False`, then evaluates
`mapIndexToTime(self.timeFrame, self.currentIdx)` — but `__init__` never
assigned `self.currentIdx`, so when the attribute slot is empty the read
raises `AttributeError` (line 118) and `close_price` is never stored.
A closed position raises `RuntimeError` (line 121). -/
def Position.close (p : Position) (close_price : ℚ) : Except PyErr Position := do
  checkForValidClosePrice close_price
  if p.isOpen then
    match p.currentIdx with
    | none => .error (.attributeError "Position object has no attribute currentIdx")
    | some _ =>
        .ok { p with isOpen := false, close_price := some close_price }
  else
    .error (.runtimeError "position is already closed")

/-- `Position.forceClose` (lines 123-132): price check, then
unconditionally `isOpen = False`, `closedAt = mapIndexToTime(...,
self.currentIdx)` (same absent-attribute read as `close`), then stores
`close_price`.  The Python call sites in this repository invoke it
without its required `close_price` argument; that call-arity failure is
modelled at the call sites. -/
def Position.forceClose (p : Position) (close_price : ℚ) : Except PyErr Position := do
  checkForValidClosePrice close_price
  match p.currentIdx with
  | none => .error (.attributeError "Position object has no attribute currentIdx")
  | some _ => .ok { p with isOpen := false, close_price := some close_price }

/-- Instance state of `StopLossPosition` (lines 148-208): a `Position`
plus `stopLossPercent`.  (In Python it is a subclass; no claim needs the
subtyping, so it is a separate record here.) -/
structure StopLossPosition where
  toPosition : Position
  stopLossPercent : ℚ
deriving DecidableEq, Repr

/-- `StopLossPosition.__init__` (lines 169-177).  Its first statement is
`super().__init__(amount=amount, timeFrame=timeFrame,
orderType=orderType)`, but `Position.__init__` requires the positional
parameter `entry_price`, which is not passed: the call raises
`TypeError` before any validation runs, for every argument list. -/
def mkStopLossPosition (_amount : ℚ) (_timeFrame : TimeFrame) (_stopLossPercent : ℚ)
    (_orderType : OrderType := OrderType.LONG) : Except PyErr StopLossPosition :=
  .error (.typeError "Position.__init__ missing 1 required positional argument: entry_price")

/-- `StopLossPosition.close` (lines 179-200), the operation the spec
calls `implicit_close`.  `close_price = None` or `≤ 0` raises
`ValueError` (line 189).  Otherwise `priceDrop = entry_price *
(stopLossPercent / 100)`; when the stop-loss condition holds the code
calls `super().close()` — `Position.close` requires the positional
`close_price` argument, so the call raises `TypeError` (lines 196, 200)
instead of closing.  When the condition does not hold, the method falls
through and the position stays open. -/
def StopLossPosition.close (p : StopLossPosition) (close_price : Option ℚ) :
    Except PyErr StopLossPosition :=
  match close_price with
  | none =>
      .error (.valueError "close_price has to be provided and bigger than 0 for stop-loss evaluation")
  | some cp =>
      if cp ≤ 0 then
        .error (.valueError "close_price has to be provided and bigger than 0 for stop-loss evaluation")
      else
        let priceDrop := p.toPosition.entry_price * (p.stopLossPercent / 100)
        if cp ≤ p.toPosition.entry_price - priceDrop ∧ p.toPosition.orderType = OrderType.LONG then
          .error (.typeError "Position.close missing 1 required positional argument: close_price")
        else if cp ≥ p.toPosition.entry_price + priceDrop ∧ p.toPosition.orderType = OrderType.SHORT then
          .error (.typeError "Position.close missing 1 required positional argument: close_price")
        else
          .ok p

/-- Instance state of `PositionHub` (lines 211-231). -/
structure PositionHub where
  positions : List Position
  length : ℕ
  timeFrame : TimeFrame
deriving DecidableEq, Repr

/-- `PositionHub.__init__` (lines 221-231). -/
def mkPositionHub (timeFrame : TimeFrame := TimeFrame.ONEDAY) : PositionHub :=
  { positions := [], length := 0, timeFrame := timeFrame }

/-- `PositionHub.checkConsistency` (lines 251-260): returns immediately
when `self.length == 0`; otherwise raises when `self.length !=
len(self.positions)`.  It inspects nothing else — in particular it never
looks at any position's `isOpen` flag. -/
def PositionHub.checkConsistency (hub : PositionHub) : Except PyErr Unit :=
  if hub.length = 0 then
    .ok ()
  else if hub.length ≠ hub.positions.length then
    .error (.exception "length is representative for the positionId and should be updated accurately")
  else
    .ok ()

/-- `PositionHub.closeLatestPosition` (lines 262-276): raises
`TypeError("No positions exist to close")` on an empty ledger; otherwise
closes the last position only if it is still open (replacing it with the
result of `Position.close`), and is a no-op when it is already closed. -/
def PositionHub.closeLatestPosition (hub : PositionHub) (close_price : ℚ) :
    Except PyErr PositionHub :=
  match hub.positions.getLast? with
  | none => .error (.typeError "No positions exist to close")
  | some latest =>
      if latest.isOpen then
        (latest.close close_price).map fun p' =>
          { hub with positions := hub.positions.dropLast ++ [p'] }
      else
        .ok hub

/-- `PositionHub.openNewPosition` (lines 278-344).  Control flow of the
source, in order:
1. `amount < SMALLEST_INVEST` raises (line 305-306);
2. when `self.length >= 1` the code runs `self.closeLatestPosition()` —
   with no argument, while the method requires `close_price`, so the
   call raises `TypeError` (line 314);
3. otherwise a position object is constructed: for `STOP_LOSS`,
   `StopLossPosition(amount=…, timeFrame=…, stopLossPercent=…,
   currentIdx=…)` raises `TypeError` because `StopLossPosition.__init__`
   has no `currentIdx` parameter (lines 320-327); for `BASIC` and for
   the fallback branch, `Position(amount=…, timeFrame=…, currentIdx=…)`
   raises `TypeError` because the required `entry_price` is not passed
   (lines 328-339).
Every argument list therefore raises before `self.positions.append`. -/
def PositionHub.openNewPosition (hub : PositionHub) (amount : ℚ)
    (_timeFrame : Option TimeFrame := none) (_currentIdx : ℤ := 0)
    (position_type : PositionType := PositionType.BASIC)
    (_stopLossPercent : ℚ := 5) : Except PyErr PositionHub :=
  if amount < SMALLEST_INVEST then
    .error (.exception "stop here. amount should be bigger than smallest possible invest")
  else if hub.length ≥ 1 then
    .error (.typeError "closeLatestPosition missing 1 required positional argument: close_price")
  else
    match position_type with
    | PositionType.STOP_LOSS =>
        .error (.typeError "StopLossPosition.__init__ got an unexpected keyword argument currentIdx")
    | _ =>
        .error (.typeError "Position.__init__ missing 1 required positional argument: entry_price")

/-- `PositionHub.openPositionObject` (lines 346-367): the `isinstance`
check always passes for a `Position` value; when `self.length >= 1` the
rollover call `self.closeLatestPosition()` again lacks its required
`close_price` argument and raises `TypeError` (line 362); otherwise the
position is appended, `checkConsistency` runs (on the still-unchanged
`length` field), and `length` is incremented. -/
def PositionHub.openPositionObject (hub : PositionHub) (position : Position) :
    Except PyErr PositionHub :=
  if hub.length ≥ 1 then
    .error (.typeError "closeLatestPosition missing 1 required positional argument: close_price")
  else
    let hub1 := { hub with positions := hub.positions ++ [position] }
    (hub1.checkConsistency).map fun _ => { hub1 with length := hub1.length + 1 }

/-- One mutating `PositionHub` operation, for stating reachability. -/
inductive HubOp where
  | openNew (amount : ℚ) (timeFrame : Option TimeFrame) (currentIdx : ℤ)
      (position_type : PositionType) (stopLossPercent : ℚ)
  | openObj (position : Position)
  | closeLatest (close_price : ℚ)

/-- Apply one operation to a hub. -/
def applyHubOp (hub : PositionHub) : HubOp → Except PyErr PositionHub
  | HubOp.openNew amount tf idx pt slp => hub.openNewPosition amount tf idx pt slp
  | HubOp.openObj p => hub.openPositionObject p
  | HubOp.closeLatest cp => hub.closeLatestPosition cp

/-- Run a sequence of operations from a hub; `.ok` only when every
single operation succeeded. -/
def runHubOps (hub : PositionHub) : List HubOp → Except PyErr PositionHub
  | [] => .ok hub
  | op :: ops => (applyHubOp hub op).bind fun hub' => runHubOps hub' ops

/-- The ledger invariant of the spec: every position before the last is
closed (so at most the last is open), and the `length` field equals the
collection size. -/
def hubInvariant (hub : PositionHub) : Prop :=
  (∀ p ∈ hub.positions.dropLast, p.isOpen = false) ∧
    hub.length = hub.positions.length

/-- Instance state of `PositionManagement` (lines 389-438).  The Bar
Source reference (`self.data`) is modelled by its observable content:
the ordered list of `"c"` closing prices (`getDataAtIndex(i)` returns
the record at `i` or raises `IndexError`; the loops below read only the
`"c"` entry, with `"o"` as fallback, and the test DummyData serves the
same value for both). -/
structure PositionManagement where
  positionHub : PositionHub
  balance : ℚ
  limit : ℚ
  tax_rate : ℚ
  data : List ℚ
deriving DecidableEq, Repr

/-- `PositionManagement.__init__` (lines 402-438): `_set_tax_rate`
validates `0 ≤ tax_rate ≤ 1`, the hub starts empty. -/
def mkPositionManagement (data : List ℚ) (balance : ℚ := 200) (limit : ℚ := LIMIT)
    (tax_rate : ℚ := 0) : Except PyErr PositionManagement :=
  if tax_rate < 0 ∨ tax_rate > 1 then
    .error (.valueError "tax_rate must be between 0 and 1")
  else
    .ok { positionHub := mkPositionHub, balance := balance, limit := limit,
          tax_rate := tax_rate, data := data }

/-- Loop body of `PositionManagement.closeAllPositionsOnCondition`
(lines 440-450).  For each position with `positionType == STOP_LOSS`
and `isOpen`, the code reads `pos.currentIdx` (an attribute `__init__`
never assigns — `AttributeError` when the slot is empty), fetches the
bar at that index (`IndexError` when out of range), and then calls
`pos.close(currentPrice=currentPrice)` — `close` has no `currentPrice`
parameter, so the call raises `TypeError`.  Positions that do not match
the condition are left untouched.  Note that nothing in the repository
ever sets `positionType` to `STOP_LOSS` (`Position.__init__` always
assigns `BASIC`, and `StopLossPosition` does not override it), so on
constructible positions the loop never enters its body. -/
def closeOnConditionLoop (data : List ℚ) : List Position → Except PyErr (List Position)
  | [] => .ok []
  | p :: ps =>
      if p.positionType = PositionType.STOP_LOSS ∧ p.isOpen then
        match p.currentIdx with
        | none => .error (.attributeError "Position object has no attribute currentIdx")
        | some i =>
            if i < 0 ∨ (data.length : ℤ) ≤ i then
              .error (.indexError "Index out of range")
            else
              .error (.typeError "close got an unexpected keyword argument currentPrice")
      else
        (closeOnConditionLoop data ps).map (p :: ·)

/-- `PositionManagement.closeAllPositionsOnCondition` (lines 440-450).
Its Python signature takes no index argument. -/
def PositionManagement.closeAllPositionsOnCondition (pm : PositionManagement) :
    Except PyErr PositionManagement :=
  (closeOnConditionLoop pm.data pm.positionHub.positions).map fun ps =>
    { pm with positionHub := { pm.positionHub with positions := ps } }

/-- Loop body of `PositionManagement.closeAllRemainingOpenPositions`
(lines 452-460): `for pos in positions: pos.forceClose()` —
`Position.forceClose` requires the positional `close_price` argument,
so the call raises `TypeError` on the first iteration of any non-empty
ledger. -/
def forceCloseLoop : List Position → Except PyErr (List Position)
  | [] => .ok []
  | _ :: _ =>
      .error (.typeError "forceClose missing 1 required positional argument: close_price")

/-- `PositionManagement.closeAllRemainingOpenPositions` (lines 452-460).
Its Python signature takes no index argument. -/
def PositionManagement.closeAllRemainingOpenPositions (pm : PositionManagement) :
    Except PyErr PositionManagement :=
  (forceCloseLoop pm.positionHub.positions).map fun ps =>
    { pm with positionHub := { pm.positionHub with positions := ps } }

/-- Per-position body of `PositionManagement.evaluate` (lines 472-481):
`(close_price - entry_price) * amount` for `LONG`,
`(entry_price - close_price) * amount` for `SHORT`, then `* (1 -
tax_rate)`.  When the position is still open, `close_price` is `None`
and the subtraction raises `TypeError`. -/
def positionProfit (tax_rate : ℚ) (p : Position) : Except PyErr ℚ :=
  match p.close_price with
  | none => .error (.typeError "unsupported operand type for subtraction: NoneType")
  | some cp =>
      match p.orderType with
      | OrderType.LONG => .ok ((cp - p.entry_price) * p.amount * (1 - tax_rate))
      | OrderType.SHORT => .ok ((p.entry_price - cp) * p.amount * (1 - tax_rate))

/-- `PositionManagement.evaluate` (lines 462-483): the ordered list of
per-position profits. -/
def PositionManagement.evaluate (pm : PositionManagement) : Except PyErr (List ℚ) :=
  pm.positionHub.positions.mapM (positionProfit pm.tax_rate)

/-- Instance state the `src/src/smabot/sma_bot.py` `SMABot.__init__`
(lines 38-71) would assign if it completed. -/
structure SMABot where
  name : String
  short_window : ℕ
  long_window : ℕ
  stop_loss_percent : ℚ
  amount : ℚ
  timeFrame : TimeFrame
deriving DecidableEq, Repr

/-- `SMABot.__init__` (`src/src/smabot/sma_bot.py`, line 48).  Its first
statement is `super().__init__(name, data)`, but `Bot.__init__`
(`src/src/bot/bot.py`, line 14) accepts only `(self, name)`: the call
raises `TypeError` before any of the parameter validation runs, for
every argument list.  (`data` is passed by its `timeFrame`; the bot
reads nothing else before the raise.) -/
def mkSMABot (_name : String) (_dataTimeFrame : TimeFrame) (_short_window : ℕ := 40)
    (_long_window : ℕ := 100) (_stop_loss_percent : ℚ := 5) (_amount : ℚ := 1) :
    Except PyErr SMABot :=
  .error (.typeError "Bot.__init__ takes 2 positional arguments but 3 were given")

/-! ### Structure detectors (`BasicAll.py`, `TextNeuerAlgos.py`)

A bar is one OHLC candle; field names follow the repository's bar
records `{t, o, h, l, c}` (`timestamp, open, high, low, close`). -/

/-- One OHLC bar.  Timestamps are integers (the sources compare and sort
`datetime` values only by order). -/
structure Bar where
  t : ℤ
  o : ℚ
  h : ℚ
  l : ℚ
  c : ℚ
deriving DecidableEq, Repr

/-- Candle color: `green` iff `close > open` (`BasicAll.py` line 36,
`TextNeuerAlgos.py` line 42); ties are `red`. -/
inductive Color where
  | green | red
deriving DecidableEq, Repr

/-- Color of a bar. -/
def barColor (b : Bar) : Color :=
  if b.c > b.o then Color.green else Color.red

/-- A weak (unconfirmed) structure candidate `{time, price}`. -/
structure Cand where
  time : ℤ
  price : ℚ
deriving DecidableEq, Repr

/-- Earliest bar attaining the maximal `high` of a list (pandas
`Series.idxmax` keeps the first occurrence of the maximum). -/
def argmaxHigh : List Bar → Option Bar
  | [] => none
  | b :: bs =>
      match argmaxHigh bs with
      | none => some b
      | some best => if best.h > b.h then some best else some b

/-- Earliest bar attaining the minimal `low` of a list (pandas
`Series.idxmin` keeps the first occurrence of the minimum). -/
def argminLow : List Bar → Option Bar
  | [] => none
  | b :: bs =>
      match argminLow bs with
      | none => some b
      | some best => if best.l < b.l then some best else some b

/-- `TextNeuerAlgos.find_max_high` (lines 18-21): time and `high` of the
earliest bar with the maximal `high` in the window. -/
def find_max_high (bars : List Bar) : Option Cand :=
  (argmaxHigh bars).map fun b => { time := b.t, price := b.h }

/-- `TextNeuerAlgos.find_min_low` (lines 23-26): time and `low` of the
earliest bar with the minimal `low` in the window. -/
def find_min_low (bars : List Bar) : Option Cand :=
  (argminLow bars).map fun b => { time := b.t, price := b.l }

/-- `BasicAll.py` lines 52-59 (`looking_high`, down-run of length 2):
the weak-high candidate is the previous bar when `prev_row['high'] >=
row['high']`, else the current bar. -/
def basicPickHigh (prev_row row : Bar) : Cand :=
  if prev_row.h ≥ row.h then { time := prev_row.t, price := prev_row.h }
  else { time := row.t, price := row.h }

/-- `BasicAll.py` lines 69-76 (`looking_low`, up-run of length 2): the
weak-low candidate is the previous bar when `prev_row['low'] <=
row['low']`, else the current bar. -/
def basicPickLow (prev_row row : Bar) : Cand :=
  if prev_row.l ≤ row.l then { time := prev_row.t, price := prev_row.l }
  else { time := row.t, price := row.l }

/-- Detector states of `TextNeuerAlgos.detect_structure`. -/
inductive MState where
  | lookingHigh | awaitHigh | lookingLow | awaitLow
deriving DecidableEq, Repr

/-- Kind of a confirmed structure point. -/
inductive SKind where
  | strongHigh | strongLow
deriving DecidableEq, Repr

/-- A confirmed structure point `(type, time, price)`. -/
structure SPoint where
  kind : SKind
  time : ℤ
  price : ℚ
deriving DecidableEq, Repr

/-- Loop state of `detect_structure` (`TextNeuerAlgos.py`, lines 29-141):
the accumulated `structure` output, the state-machine state, the current
run `{color, length}` and pending candidate, plus the two previously
processed bars (`df.iloc[i-1]`, `df.iloc[i-2]`), which stand in for the
integer index arithmetic: the source guard `i >= 2` holds exactly when
`prev2` is present, and every window `[i-2, i-1, i]` is
`[prev2, prev1, current]`. -/
structure DetState where
  out : List SPoint
  state : MState
  runColor : Option Color
  runLen : ℕ
  candidate : Option Cand
  prev1 : Option Bar
  prev2 : Option Bar
deriving DecidableEq, Repr

/-- Initial loop state of `detect_structure` (lines 30-34). -/
def initDetState : DetState :=
  { out := [], state := MState.lookingHigh, runColor := none, runLen := 0,
    candidate := none, prev1 := none, prev2 := none }

/-- The 3-bar window `[i-2, i-1, i]` ending at the current bar. -/
def window3 (st : DetState) (cur : Bar) : List Bar :=
  st.prev2.toList ++ st.prev1.toList ++ [cur]

/-- One iteration of the `detect_structure` loop (lines 40-101), minus
the debug plotting.  The branch chain is the source's `if/elif` chain;
the two `match st.candidate with | none` fallbacks in the await states
correspond to a `candidate['price']` subscript of `None`, which the
source would crash on — the awaited states always carry a candidate, so
these fallbacks are unreachable from `initDetState` (they leave the
state unchanged apart from the run bookkeeping).  Likewise
`find_max_high`/`find_min_low` of the non-empty `window3` is never
`none`; the `getD` defaults are unreachable. -/
def stepDetect (st : DetState) (cur : Bar) : DetState :=
  let color := barColor cur
  let runColor := some color
  let runLen := if st.runColor = some color then st.runLen + 1 else 1
  let st1 := { st with runColor := runColor, runLen := runLen,
                       prev1 := some cur, prev2 := st.prev1 }
  -- looking_high → await_high (line 52-54)
  if st.state = MState.lookingHigh ∧ color = Color.red ∧ runLen = 2 ∧ st.prev2.isSome then
    { st1 with candidate := find_max_high (window3 st cur), state := MState.awaitHigh }
  -- await_high: confirmation or candidate update (lines 57-75)
  else if st.state = MState.awaitHigh then
    match st.candidate with
    | some cand =>
        if color = Color.green ∧ runLen = 2 then
          if cur.h < cand.price then
            { st1 with out := st.out ++ [⟨SKind.strongHigh, cand.time, cand.price⟩],
                       candidate := none, runLen := 0, state := MState.lookingLow }

          else
            let new_wh := (find_max_high (window3 st cur)).getD cand
            if new_wh.price > cand.price then { st1 with candidate := some new_wh } else st1
        else if color = Color.red ∧ runLen = 2 then
          let new_wh := (find_max_high (window3 st cur)).getD cand
          if new_wh.price > cand.price then { st1 with candidate := some new_wh } else st1
        else st1
    | none => st1
  -- looking_low → await_low (lines 78-80)
  else if st.state = MState.lookingLow ∧ color = Color.green ∧ runLen = 2 ∧ st.prev2.isSome then
    { st1 with candidate := find_min_low (window3 st cur), state := MState.awaitLow }
  -- await_low: confirmation or candidate update (lines 83-101)
  else if st.state = MState.awaitLow then
    match st.candidate with
    | some cand =>
        if color = Color.red ∧ runLen = 2 then
          if cur.l > cand.price then
            { st1 with out := st.out ++ [⟨SKind.strongLow, cand.time, cand.price⟩],
                       candidate := none, runLen := 0, state := MState.lookingHigh }
          else
            let new_wl := (find_min_low (window3 st cur)).getD cand
            if new_wl.price < cand.price then { st1 with candidate := some new_wl } else st1
        else if color = Color.green ∧ runLen = 2 then
          let new_wl := (find_min_low (window3 st cur)).getD cand
          if new_wl.price < cand.price then { st1 with candidate := some new_wl } else st1
        else st1
    | none => st1
  else st1

/-- `TextNeuerAlgos.detect_structure` (lines 29-141): fold the step over
the bar sequence; the emitted structure points are `(… bars).out`. -/
def detect_structure (bars : List Bar) : DetState :=
  bars.foldl stepDetect initDetState

/-! ### Auxiliary definitions used by the theorems below. -/

/-- The spec's per-position realized-profit formula (§4.5 `evaluate`):
`(close_price - entry_price) * amount` for Long, `(entry_price -
close_price) * amount` for Short, multiplied by `(1 - tax_rate)`.
Stated with `getD 0`; it is only compared with the code on ledgers whose
positions all carry a close price. -/
def specRealizedProfit (tax_rate : ℚ) (p : Position) : ℚ :=
  (match p.orderType with
    | OrderType.LONG => (p.close_price.getD 0 - p.entry_price) * p.amount
    | OrderType.SHORT => (p.entry_price - p.close_price.getD 0) * p.amount) * (1 - tax_rate)

/-- A concrete open Long position (entry 100, amount 2). -/
def samplePositionOpen : Position :=
  { entry_price := 100, amount := 2, timeFrame := TimeFrame.ONEDAY,
    orderType := OrderType.LONG, positionType := PositionType.BASIC,
    isOpen := true, close_price := none, currentIdx := none }

/-- A concrete closed Long position (entry 100, close 110, amount 2). -/
def samplePositionClosed : Position :=
  { entry_price := 100, amount := 2, timeFrame := TimeFrame.ONEDAY,
    orderType := OrderType.LONG, positionType := PositionType.BASIC,
    isOpen := false, close_price := some 110, currentIdx := none }

/-- A concrete management state: tax rate `0.25`, one closed Long
position (entry 100, close 110, amount 2). -/
def sampleManagement : PositionManagement :=
  { positionHub := { positions := [samplePositionClosed], length := 1,
                     timeFrame := TimeFrame.ONEDAY },
    balance := 200, limit := LIMIT, tax_rate := 1 / 4, data := [] }

/-- A concrete stop-loss position state: entry 100, amount 1, Long,
`stopLossPercent = 10`. -/
def sampleStopLoss : StopLossPosition :=
  { toPosition := { entry_price := 100, amount := 1, timeFrame := TimeFrame.ONEDAY,
                    orderType := OrderType.LONG, positionType := PositionType.BASIC,
                    isOpen := true, close_price := none, currentIdx := none },
    stopLossPercent := 10 }

/-- Two down bars with equal highs (20) at times 0 and 1. -/
def tieHighEarlier : Bar := { t := 0, o := 10, h := 20, l := 1, c := 9 }

/-- The later of the two equal-high bars. -/
def tieHighLater : Bar := { t := 1, o := 9, h := 20, l := 2, c := 8 }

/-- Two up bars with equal lows (5) at times 0 and 1. -/
def tieLowEarlier : Bar := { t := 0, o := 9, h := 20, l := 5, c := 10 }

/-- The later of the two equal-low bars. -/
def tieLowLater : Bar := { t := 1, o := 10, h := 21, l := 5, c := 11 }

/-- Invariant of the `detect_structure` loop after processing the bar
prefix `p`, strong enough to be preserved by `stepDetect` (for a bar
stream with strictly increasing timestamps) and to give the emitted-
sequence properties. -/
structure DetInv (p : List Bar) (st : DetState) : Prop where
  pw_out : List.Pairwise (· < ·) (st.out.map SPoint.time)
  mem_out : ∀ sp ∈ st.out, sp.time ∈ p.map Bar.t
  prev1_eq : st.prev1 = p.getLast?
  prev2_eq : st.prev2 = p.dropLast.getLast?
  cand_mem : ∀ c, st.candidate = some c → c.time ∈ p.map Bar.t
  cand_gt : ∀ c, st.candidate = some c → ∀ sp ∈ st.out, sp.time < c.time
  cand_le : ∀ c, st.candidate = some c → ∀ b, st.prev1 = some b → c.time ≤ b.t
  out_lt_drop : ∀ sp ∈ st.out, ∀ b ∈ p.drop (p.length - 1 - st.runLen), sp.time < b.t
  out_lt_prev1 : ∀ sp ∈ st.out, ∀ b, st.prev1 = some b → sp.time < b.t

/-- A concrete classifiable bar stream: one green bar, a 2-bar down run
(triggering a weak-high candidate), then a 2-bar up run below the
candidate (confirming one Strong High at time 1, price 12). -/
def sampleBars : List Bar :=
  [ { t := 0, o := 5, h := 10, l := 4, c := 6 },
    { t := 1, o := 6, h := 12, l := 3, c := 5 },
    { t := 2, o := 5, h := 11, l := 2, c := 4 },
    { t := 3, o := 4, h := 5, l := 1, c := 5 },
    { t := 4, o := 5, h := 6, l := 2, c := 6 } ]

/-! ### Helper lemmas -/

/-- Every argument list makes `openNewPosition` raise before appending. -/
theorem openNewPosition_isError (hub : PositionHub) (amount : ℚ) (tf : Option TimeFrame)
    (ci : ℤ) (pt : PositionType) (slp : ℚ) :
    ∃ e : PyErr, hub.openNewPosition amount tf ci pt slp = Except.error e := by
  unfold PositionHub.openNewPosition
  split_ifs
  · exact ⟨_, rfl⟩
  · exact ⟨_, rfl⟩
  · cases pt <;> exact ⟨_, rfl⟩

/-- The stop-loss sweep leaves any list without an open stop-loss
position untouched. -/
theorem closeOnConditionLoop_noop (d : List ℚ) (ps : List Position)
    (h : ∀ p ∈ ps, p.positionType = PositionType.BASIC) :
    closeOnConditionLoop d ps = Except.ok ps := by
  induction ps with
  | nil => rfl
  | cons p ps ih =>
      have hp := h p (List.mem_cons_self p ps)
      have hps := ih fun q hq => h q (List.mem_cons_of_mem p hq)
      unfold closeOnConditionLoop
      rw [if_neg (by simp [hp]), hps]
      rfl

/-- `mapM` of the per-position profit agrees with the spec formula on
all-closed ledgers. -/
theorem mapM_positionProfit (t : ℚ) (ps : List Position)
    (h : ∀ p ∈ ps, p.close_price.isSome) :
    ps.mapM (positionProfit t) = Except.ok (ps.map (specRealizedProfit t)) := by
  induction ps with
  | nil => rfl
  | cons p ps ih =>
      have hp := h p (List.mem_cons_self p ps)
      have hps := ih fun q hq => h q (List.mem_cons_of_mem p hq)
      obtain ⟨cp, hcp⟩ := Option.isSome_iff_exists.mp hp
      rw [List.mapM_cons, hps]
      cases hot : p.orderType <;>
        (simp only [List.map_cons, positionProfit, specRealizedProfit, hcp, hot,
          Option.getD_some]; rfl)

/-! ### Claim theorems -/

/-- C10: `PositionHub.checkConsistency` succeeds exactly when the
`length` field is zero or equals the collection size (so it raises iff
`length` is non-zero and differs from `len(positions)`), and its result
depends only on the `length` field and the collection size — in
particular it never examines whether positions before the last are
still open. -/
theorem checkConsistency_length_only :
    ∀ hub : PositionHub,
      (hub.checkConsistency = Except.ok () ↔
        hub.length = 0 ∨ hub.length = hub.positions.length)
      ∧ ∀ hub2 : PositionHub, hub.length = hub2.length →
          hub.positions.length = hub2.positions.length →
          hub.checkConsistency = hub2.checkConsistency := by
  intro hub
  constructor
  · unfold PositionHub.checkConsistency
    split_ifs with h1 h2
    · simp [h1]
    · simp [h1, h2]
    · simpa [h1] using not_ne_iff.mp h2
  · intro hub2 h1 h2
    unfold PositionHub.checkConsistency
    rw [h1, h2]

/-- C10 witness: the check cannot distinguish a hub holding one open
position from a hub holding one closed position. -/
theorem checkConsistency_length_only_witness :
    PositionHub.checkConsistency
        { positions := [samplePositionOpen], length := 1, timeFrame := TimeFrame.ONEDAY }
      = PositionHub.checkConsistency
        { positions := [samplePositionClosed], length := 1, timeFrame := TimeFrame.ONEDAY } :=
  (checkConsistency_length_only _).2
    { positions := [samplePositionClosed], length := 1, timeFrame := TimeFrame.ONEDAY }
    rfl rfl

/-- C8: on a ledger whose positions all carry a close price,
`PositionManagement.evaluate` returns, in ledger order, `(close_price -
entry_price) * amount` for Long and `(entry_price - close_price) *
amount` for Short, each multiplied by `(1 - tax_rate)`; with `tax_rate =
0.25` and one Long position entry 100 / close 110 / amount 2 the result
is `[15]`. -/
theorem evaluate_profits :
    (∀ pm : PositionManagement,
        (∀ p ∈ pm.positionHub.positions, p.close_price.isSome) →
        pm.evaluate = Except.ok (pm.positionHub.positions.map (specRealizedProfit pm.tax_rate)))
    ∧ sampleManagement.evaluate = Except.ok [15] := by
  constructor
  · intro pm h
    exact mapM_positionProfit pm.tax_rate pm.positionHub.positions h
  · show Except.ok [(110 - 100) * 2 * (1 - 1 / 4)] = Except.ok [(15 : ℚ)]
    norm_num

/-- C8 witness: the general statement applied to the concrete
management state. -/
theorem evaluate_profits_witness :
    sampleManagement.evaluate =
      Except.ok (sampleManagement.positionHub.positions.map
        (specRealizedProfit sampleManagement.tax_rate)) :=
  evaluate_profits.1 sampleManagement (by decide)

/-- C3: on every position built by `Position.__init__`, `close` raises
`ValueError` for a non-positive price (as the claim states), but for a
positive price it never reaches the claimed success state: line 118
reads the never-assigned attribute `self.currentIdx` and raises
`AttributeError`, so `close_price` is never stored. -/
theorem position_close_behavior :
    ∀ (e a : ℚ) (tf : TimeFrame) (ot : OrderType) (ci : ℤ) (p : Position),
      mkPosition e a tf ot ci = Except.ok p →
      ∀ cp : ℚ,
        (cp ≤ 0 → p.close cp =
          Except.error (.valueError "close_price has to be bigger than 0 - otherwise it be odd.")) ∧
        (0 < cp → p.close cp =
          Except.error (.attributeError "Position object has no attribute currentIdx")) := by
  intro e a tf ot ci p hp cp
  unfold mkPosition at hp
  split_ifs at hp
  obtain rfl : _ = p := Except.ok.inj hp
  constructor
  · intro hcp
    simp only [Position.close, checkForValidClosePrice, if_pos hcp]
    rfl
  · intro hcp
    simp only [Position.close, checkForValidClosePrice, if_neg (not_le.mpr hcp)]
    rfl

/-- C3 witness: a freshly constructed Long position (entry 100, amount
2) raises `AttributeError` on `close(110)`. -/
theorem position_close_behavior_witness :
    samplePositionOpen.close 110 =
      Except.error (.attributeError "Position object has no attribute currentIdx") :=
  (position_close_behavior 100 2 TimeFrame.ONEDAY OrderType.LONG 0
    samplePositionOpen rfl 110).2 (by norm_num)

/-- C5: `StopLossPosition` cannot even be constructed (its `__init__`
forwards to `Position.__init__` without the required `entry_price`);
and on an instance state with entry 100, `stopLossPercent` 10, Long,
the spec's `implicit_close(88)` (the source's `close`) hits
`super().close()` without the required `close_price` argument and
raises `TypeError` instead of closing, while `implicit_close(92)` is a
no-op that leaves the position open, as claimed. -/
theorem stoploss_close_evidence :
    mkStopLossPosition 1 TimeFrame.ONEDAY 10 OrderType.LONG =
      Except.error (.typeError "Position.__init__ missing 1 required positional argument: entry_price")
    ∧ sampleStopLoss.close (some 88) =
      Except.error (.typeError "Position.close missing 1 required positional argument: close_price")
    ∧ sampleStopLoss.close (some 92) = Except.ok sampleStopLoss := by
  refine ⟨rfl, ?_, ?_⟩
  · norm_num [StopLossPosition.close, sampleStopLoss]
  · norm_num [StopLossPosition.close, sampleStopLoss]

/-- C6: `closeAllRemainingOpenPositions` cannot force-close anything:
on every non-empty ledger its loop calls `pos.forceClose()` without the
required `close_price` argument and raises `TypeError` on the first
iteration. -/
theorem closeAllRemaining_errors :
    ∀ pm : PositionManagement, pm.positionHub.positions ≠ [] →
      pm.closeAllRemainingOpenPositions =
        Except.error (.typeError "forceClose missing 1 required positional argument: close_price") := by
  intro pm h
  unfold PositionManagement.closeAllRemainingOpenPositions
  cases hps : pm.positionHub.positions with
  | nil => exact absurd hps h
  | cons p ps => rfl

/-- C6 witness: the sweep fails on the concrete one-position ledger. -/
theorem closeAllRemaining_errors_witness :
    sampleManagement.closeAllRemainingOpenPositions =
      Except.error (.typeError "forceClose missing 1 required positional argument: close_price") :=
  closeAllRemaining_errors sampleManagement (by simp [sampleManagement])

/-- C7: `openNewPosition` raises on every input (non-positive amounts
aside, the rollover call `self.closeLatestPosition()` lacks its required
argument whenever a position exists, and the position-construction calls
mismatch the constructors' signatures), so no sequence of three opens
can ever leave positions in the ledger; `closeLatestPosition` on a new
(empty) hub raises the empty-ledger error, as claimed. -/
theorem openNewPosition_never_succeeds :
    (∀ (hub : PositionHub) (amount : ℚ) (tf : Option TimeFrame) (ci : ℤ)
        (pt : PositionType) (slp : ℚ),
        ∃ e : PyErr, hub.openNewPosition amount tf ci pt slp = Except.error e)
    ∧ ∀ (tf : TimeFrame) (cp : ℚ),
        (mkPositionHub tf).closeLatestPosition cp =
          Except.error (.typeError "No positions exist to close") := by
  constructor
  · exact openNewPosition_isError
  · intro tf cp
    rfl

/-- C4: the SMA bot of `src/src/smabot/sma_bot.py` cannot execute a
tick: `SMABot.__init__` raises `TypeError` for every argument list
(it passes two positional arguments to `Bot.__init__`, which accepts
only the name), and the stop-loss sweep `closeAllPositionsOnCondition`
that `decide_and_trade` is claimed to run first is a no-op on every
ledger whose positions were built by the repository's constructors,
because no constructor ever sets `positionType` to `STOP_LOSS`. -/
theorem smabot_init_and_stoploss_check :
    (∀ (name : String) (tf : TimeFrame) (sw lw : ℕ) (slp amt : ℚ),
        mkSMABot name tf sw lw slp amt =
          Except.error (.typeError "Bot.__init__ takes 2 positional arguments but 3 were given"))
    ∧ ∀ pm : PositionManagement,
        (∀ p ∈ pm.positionHub.positions, p.positionType = PositionType.BASIC) →
        pm.closeAllPositionsOnCondition = Except.ok pm := by
  constructor
  · intro name tf sw lw slp amt
    rfl
  · intro pm h
    unfold PositionManagement.closeAllPositionsOnCondition
    rw [closeOnConditionLoop_noop pm.data pm.positionHub.positions h]
    rfl

/-- C4 witness: the sweep leaves the concrete management state (one
basic position) unchanged. -/
theorem smabot_init_and_stoploss_check_witness :
    sampleManagement.closeAllPositionsOnCondition = Except.ok sampleManagement :=
  smabot_init_and_stoploss_check.2 sampleManagement (by decide)

/-- C2 counterexample: on a 2-bar run with equal extremum values the
detectors choose the EARLIER bar, not the later one claimed.  With
equal highs (resp. lows) at times 0 and 1, the `BasicAll.py` candidate
pick and `find_max_high`/`find_min_low` of `TextNeuerAlgos.py` all
return the bar at time 0. -/
theorem tiebreak_later_counterexample :
    tieHighEarlier.h = tieHighLater.h ∧ tieHighEarlier.t ≠ tieHighLater.t
    ∧ (basicPickHigh tieHighEarlier tieHighLater).time = tieHighEarlier.t
    ∧ (basicPickHigh tieHighEarlier tieHighLater).time ≠ tieHighLater.t
    ∧ find_max_high [tieHighEarlier, tieHighLater] =
        some { time := tieHighEarlier.t, price := tieHighEarlier.h }
    ∧ tieLowEarlier.l = tieLowLater.l
    ∧ (basicPickLow tieLowEarlier tieLowLater).time = tieLowEarlier.t
    ∧ (basicPickLow tieLowEarlier tieLowLater).time ≠ tieLowLater.t
    ∧ find_min_low [tieLowEarlier, tieLowLater] =
        some { time := tieLowEarlier.t, price := tieLowEarlier.l } := by
  refine ⟨rfl, by decide, rfl, by decide, rfl, rfl, rfl, by decide, rfl⟩

/-- C2 amended: when the two bars of the candidate-triggering 2-run
have equal extremum values, the earlier bar is chosen — by the
`>=`/`<=` comparisons of `BasicAll.py` (which keep `prev_row`) and by
the first-occurrence `idxmax`/`idxmin` semantics of
`find_max_high`/`find_min_low`. -/
theorem tiebreak_prefers_earlier :
    (∀ prev_row row : Bar, prev_row.h = row.h →
        basicPickHigh prev_row row = { time := prev_row.t, price := prev_row.h })
    ∧ (∀ prev_row row : Bar, prev_row.l = row.l →
        basicPickLow prev_row row = { time := prev_row.t, price := prev_row.l })
    ∧ (∀ a b : Bar, a.h = b.h →
        find_max_high [a, b] = some { time := a.t, price := a.h })
    ∧ (∀ a b : Bar, a.l = b.l →
        find_min_low [a, b] = some { time := a.t, price := a.l }) := by
  refine ⟨?_, ?_, ?_, ?_⟩
  · intro prev_row row h
    unfold basicPickHigh
    rw [if_pos (le_of_eq h.symm)]
  · intro prev_row row h
    unfold basicPickLow
    rw [if_pos (le_of_eq h)]
  · intro a b h
    simp [find_max_high, argmaxHigh, h, lt_irrefl]
  · intro a b h
    simp [find_min_low, argminLow, h, lt_irrefl]

/-- C2 amended witness: the equal-high and equal-low pairs at times 0
and 1 yield the earlier candidates. -/
theorem tiebreak_prefers_earlier_witness :
    basicPickHigh tieHighEarlier tieHighLater =
        { time := tieHighEarlier.t, price := tieHighEarlier.h }
      ∧ basicPickLow tieLowEarlier tieLowLater =
        { time := tieLowEarlier.t, price := tieLowEarlier.l } :=
  ⟨tiebreak_prefers_earlier.1 tieHighEarlier tieHighLater rfl,
   tiebreak_prefers_earlier.2.1 tieLowEarlier tieLowLater rfl⟩

/-- One successful hub operation preserves the ledger invariant. -/
theorem hubInvariant_step (hub hub' : PositionHub) (op : HubOp)
    (hinv : hubInvariant hub) (h : applyHubOp hub op = Except.ok hub') :
    hubInvariant hub' := by
  cases op with
  | openNew amount tf ci pt slp =>
      obtain ⟨e, he⟩ := openNewPosition_isError hub amount tf ci pt slp
      rw [applyHubOp, he] at h
      exact absurd h (by simp)
  | openObj p =>
      rw [applyHubOp] at h
      unfold PositionHub.openPositionObject at h
      dsimp only at h
      split_ifs at h with hlen
      have h2 := hinv.2
      have hzero : hub.length = 0 := by omega
      have hplen : hub.positions.length = 0 := by omega
      have hnil : hub.positions = [] := List.length_eq_zero.mp hplen
      have hcc : PositionHub.checkConsistency
          { hub with positions := hub.positions ++ [p] } = Except.ok () := by
        unfold PositionHub.checkConsistency
        simp [hzero]
      rw [hcc] at h
      obtain rfl : _ = hub' := Except.ok.inj h
      refine ⟨?_, ?_⟩
      · intro q hq
        rw [hnil] at hq
        simp at hq
      · simp [hnil, hzero]
  | closeLatest cp =>
      rw [applyHubOp] at h
      unfold PositionHub.closeLatestPosition at h
      cases hlast : hub.positions.getLast? with
      | none =>
          rw [hlast] at h
          exact absurd h (by simp)
      | some latest =>
          rw [hlast] at h
          dsimp only at h
          have hne : hub.positions ≠ [] := by
            intro hn
            rw [hn] at hlast
            exact Option.noConfusion hlast
          split_ifs at h with hopen
          · cases hclose : latest.close cp with
            | error e => rw [hclose] at h; simp [Except.map] at h
            | ok p' =>
                rw [hclose] at h
                obtain rfl : _ = hub' := Except.ok.inj h
                refine ⟨?_, ?_⟩
                · intro q hq
                  rw [List.dropLast_concat] at hq
                  exact hinv.1 q hq
                · have hlen := hinv.2
                  have hpos : 0 < hub.positions.length := List.length_pos.mpr hne
                  simp only [List.length_append, List.length_dropLast, List.length_cons,
                    List.length_nil]
                  omega
          · obtain rfl : _ = hub' := Except.ok.inj h
            exact hinv

/-- Successful operation sequences preserve the invariant. -/
theorem runHubOps_invariant (ops : List HubOp) :
    ∀ hub0 hub : PositionHub, hubInvariant hub0 →
      runHubOps hub0 ops = Except.ok hub → hubInvariant hub := by
  induction ops with
  | nil =>
      intro hub0 hub hinv h
      obtain rfl : hub0 = hub := Except.ok.inj h
      exact hinv
  | cons op ops ih =>
      intro hub0 hub hinv h
      rw [runHubOps] at h
      cases happ : applyHubOp hub0 op with
      | error e => rw [happ] at h; simp [Except.bind] at h
      | ok mid =>
          rw [happ] at h
          exact ih mid hub (hubInvariant_step hub0 mid op hinv happ) h

/-- C1: after every sequence of successful `PositionHub` operations
(`openNewPosition`, `openPositionObject`, `closeLatestPosition`)
starting from a new hub, every position before the last is closed (so
at most the last is open) and the `length` field equals the number of
positions in the collection. -/
theorem positionHub_sequence_invariant :
    ∀ (tf : TimeFrame) (ops : List HubOp) (hub : PositionHub),
      runHubOps (mkPositionHub tf) ops = Except.ok hub → hubInvariant hub := by
  intro tf ops hub h
  refine runHubOps_invariant ops (mkPositionHub tf) hub ⟨?_, rfl⟩ h
  intro q hq
  simp [mkPositionHub] at hq

/-- C1 witness: adding one concrete position object to a new hub
succeeds and the resulting ledger satisfies the invariant. -/
theorem positionHub_sequence_invariant_witness :
    hubInvariant { positions := [samplePositionOpen], length := 1,
                   timeFrame := TimeFrame.ONEDAY } :=
  positionHub_sequence_invariant TimeFrame.ONEDAY [HubOp.openObj samplePositionOpen]
    { positions := [samplePositionOpen], length := 1, timeFrame := TimeFrame.ONEDAY } rfl

/-- The earliest-maximum bar is a member of its list. -/
theorem argmaxHigh_mem : ∀ (bars : List Bar) (b : Bar), argmaxHigh bars = some b → b ∈ bars := by
  intro bars
  induction bars with
  | nil => intro b h; simp [argmaxHigh] at h
  | cons x xs ih =>
      intro b h
      unfold argmaxHigh at h
      cases hxs : argmaxHigh xs with
      | none =>
          rw [hxs] at h
          obtain rfl := Option.some.inj h
          exact List.mem_cons_self x xs
      | some best =>
          simp only [hxs] at h
          split_ifs at h with hlt
          · obtain rfl := Option.some.inj h
            exact List.mem_cons_of_mem x (ih best hxs)
          · obtain rfl := Option.some.inj h
            exact List.mem_cons_self x xs

/-- The earliest-minimum bar is a member of its list. -/
theorem argminLow_mem : ∀ (bars : List Bar) (b : Bar), argminLow bars = some b → b ∈ bars := by
  intro bars
  induction bars with
  | nil => intro b h; simp [argminLow] at h
  | cons x xs ih =>
      intro b h
      unfold argminLow at h
      cases hxs : argminLow xs with
      | none =>
          rw [hxs] at h
          obtain rfl := Option.some.inj h
          exact List.mem_cons_self x xs
      | some best =>
          simp only [hxs] at h
          split_ifs at h with hlt
          · obtain rfl := Option.some.inj h
            exact List.mem_cons_of_mem x (ih best hxs)
          · obtain rfl := Option.some.inj h
            exact List.mem_cons_self x xs

/-- A `find_max_high` candidate carries the time of one of the window's
bars. -/
theorem find_max_high_time (bars : List Bar) (c : Cand) (h : find_max_high bars = some c) :
    ∃ b ∈ bars, c.time = b.t := by
  unfold find_max_high at h
  cases hb : argmaxHigh bars with
  | none => rw [hb] at h; cases h
  | some b =>
      rw [hb] at h
      obtain rfl := Option.some.inj h
      exact ⟨b, argmaxHigh_mem bars b hb, rfl⟩

/-- A `find_min_low` candidate carries the time of one of the window's
bars. -/
theorem find_min_low_time (bars : List Bar) (c : Cand) (h : find_min_low bars = some c) :
    ∃ b ∈ bars, c.time = b.t := by
  unfold find_min_low at h
  cases hb : argminLow bars with
  | none => rw [hb] at h; cases h
  | some b =>
      rw [hb] at h
      obtain rfl := Option.some.inj h
      exact ⟨b, argminLow_mem bars b hb, rfl⟩

/-- A list's last element lies in every proper-tail drop of the list. -/
theorem mem_drop_of_getLast? {l : List Bar} {b : Bar} (h : l.getLast? = some b)
    {k : ℕ} (hk : k < l.length) : b ∈ l.drop k := by
  have hlen : (l.drop k).length = l.length - k := List.length_drop k l
  have hne : l.drop k ≠ [] := by
    intro hnil
    rw [hnil] at hlen
    simp at hlen
    omega
  have hlast : (l.drop k).getLast? = l.getLast? := by
    conv_rhs => rw [← List.take_append_drop k l]
    rw [List.getLast?_append_of_ne_nil _ hne]
  exact List.mem_of_mem_getLast? (hlast ▸ h)

/-- A list's second-to-last element lies in the final 2-element drop. -/
theorem secondLast_mem_drop {l : List Bar} {b : Bar} (h : l.dropLast.getLast? = some b) :
    b ∈ l.drop (l.length - 2) := by
  have hdlne : l.dropLast ≠ [] := by
    intro hn
    rw [hn] at h
    cases h
  have hdllen : l.dropLast.length = l.length - 1 := List.length_dropLast l
  have hpos : 0 < l.dropLast.length := List.length_pos.mpr hdlne
  have hmem : b ∈ l.dropLast.drop (l.length - 2) := by
    apply mem_drop_of_getLast? h
    omega
  have hlne : l ≠ [] := by
    intro hn
    rw [hn] at hdlne
    exact hdlne rfl
  have hsplit : l.dropLast ++ [l.getLast hlne] = l := List.dropLast_append_getLast hlne
  have hk2 : l.length - 2 ≤ l.dropLast.length := by omega
  have hdrop : l.drop (l.length - 2) =
      l.dropLast.drop (l.length - 2) ++ [l.getLast hlne] := by
    generalize hK : l.length - 2 = K at hk2 ⊢
    conv_lhs => rw [← hsplit]
    exact List.drop_append_of_le_length hk2
  rw [hdrop]
  exact List.mem_append_left _ hmem

/-- Every bar of the current 3-bar window is a processed bar or the
current one. -/
theorem window3_mem {p : List Bar} {st : DetState} {cur : Bar}
    (h1 : st.prev1 = p.getLast?) (h2 : st.prev2 = p.dropLast.getLast?) :
    ∀ b ∈ window3 st cur, b ∈ p ∨ b = cur := by
  intro b hb
  unfold window3 at hb
  rcases List.mem_append.mp hb with hb1 | hb2
  · rcases List.mem_append.mp hb1 with hb3 | hb4
    · left
      have h4 : st.prev2 = some b := by cases hp : st.prev2 <;> simp_all
      exact List.dropLast_subset p (List.mem_of_mem_getLast? (h2.symm.trans h4))
    · left
      have h3 : st.prev1 = some b := by cases hp : st.prev1 <;> simp_all
      exact List.mem_of_mem_getLast? (h1.symm.trans h3)
  · right
    simpa using hb2

/-- In a timestamp-sorted extended stream, every processed bar precedes
the current one. -/
theorem pairwise_concat_lt {p : List Bar} {cur : Bar}
    (hpw : List.Pairwise (fun a b => a.t < b.t) (p ++ [cur])) :
    ∀ b ∈ p, b.t < cur.t := by
  intro b hb
  exact (List.pairwise_append.mp hpw).2.2 b hb cur (List.mem_singleton.mpr rfl)

/-- Each emitted time is the timestamp of a processed bar. -/
theorem out_time_mem {p : List Bar} {st : DetState} (hinv : DetInv p st)
    {sp : SPoint} (hsp : sp ∈ st.out) : ∃ b ∈ p, sp.time = b.t := by
  have h := hinv.mem_out sp hsp
  rw [List.mem_map] at h
  obtain ⟨b, hb, ht⟩ := h
  exact ⟨b, hb, ht.symm⟩

/-- Emitted times precede the current bar's timestamp. -/
theorem out_lt_cur {p : List Bar} {cur : Bar} {st : DetState}
    (hpw : List.Pairwise (fun a b => a.t < b.t) (p ++ [cur]))
    (hinv : DetInv p st) : ∀ sp ∈ st.out, sp.time < cur.t := by
  intro sp hsp
  obtain ⟨b, hb, ht⟩ := out_time_mem hinv hsp
  rw [ht]
  exact pairwise_concat_lt hpw b hb

/-- The pending candidate's time precedes the current bar's timestamp. -/
theorem cand_lt_cur {p : List Bar} {cur : Bar} {st : DetState}
    (hpw : List.Pairwise (fun a b => a.t < b.t) (p ++ [cur]))
    (hinv : DetInv p st) : ∀ c, st.candidate = some c → c.time < cur.t := by
  intro c hc
  have h := hinv.cand_mem c hc
  rw [List.mem_map] at h
  obtain ⟨b, hb, ht⟩ := h
  rw [← ht]
  exact pairwise_concat_lt hpw b hb

/-- Every bar of the current 3-bar window dominates all emitted times,
provided the current run had length 1 before this bar. -/
theorem window3_gt_out {p : List Bar} {cur : Bar} {st : DetState}
    (hpw : List.Pairwise (fun a b => a.t < b.t) (p ++ [cur]))
    (hinv : DetInv p st) (hrl : st.runLen = 1) :
    ∀ b ∈ window3 st cur, ∀ sp ∈ st.out, sp.time < b.t := by
  intro b hbw sp hsp
  have hk : p.length - 1 - st.runLen = p.length - 2 := by omega
  unfold window3 at hbw
  rcases List.mem_append.mp hbw with hb1 | hb2
  · rcases List.mem_append.mp hb1 with hb3 | hb4
    · have h4 : st.prev2 = some b := by cases hp : st.prev2 <;> simp_all
      have h5 : p.dropLast.getLast? = some b := hinv.prev2_eq.symm.trans h4
      have hbd : b ∈ p.drop (p.length - 2) := secondLast_mem_drop h5
      exact hinv.out_lt_drop sp hsp b (by rw [hk]; exact hbd)
    · have h3 : st.prev1 = some b := by cases hp : st.prev1 <;> simp_all
      have h5 : p.getLast? = some b := hinv.prev1_eq.symm.trans h3
      have hpne : p ≠ [] := by intro hn; rw [hn] at h5; cases h5
      have hlpos : 0 < p.length := List.length_pos.mpr hpne
      have hbd : b ∈ p.drop (p.length - 2) := mem_drop_of_getLast? h5 (by omega)
      exact hinv.out_lt_drop sp hsp b (by rw [hk]; exact hbd)
  · obtain rfl : b = cur := by simpa using hb2
    exact out_lt_cur hpw hinv sp hsp

/-- Step shape 1 ("carry"): run bookkeeping and previous-bar tracking
advance while the output, state and candidate are unchanged. -/
theorem detInv_carry {p : List Bar} {cur : Bar} {st : DetState}
    (hpw : List.Pairwise (fun a b => a.t < b.t) (p ++ [cur]))
    (hinv : DetInv p st) (n : ℕ)
    (hbn : p.length - 1 - st.runLen ≤ p.length - n) :
    DetInv (p ++ [cur])
      { out := st.out, state := st.state, runColor := some (barColor cur), runLen := n,
        candidate := st.candidate, prev1 := some cur, prev2 := st.prev1 } := by
  have houtcur := out_lt_cur hpw hinv
  have hcandcur := cand_lt_cur hpw hinv
  refine ⟨hinv.pw_out, ?_, ?_, ?_, ?_, ?_, ?_, ?_, ?_⟩
  · intro sp hsp
    rw [List.map_append]
    exact List.mem_append_left _ (hinv.mem_out sp hsp)
  · exact (List.getLast?_concat p).symm
  · rw [List.dropLast_concat]
    exact hinv.prev1_eq
  · intro c hc
    rw [List.map_append]
    exact List.mem_append_left _ (hinv.cand_mem c hc)
  · exact hinv.cand_gt
  · intro c hc b hbb
    obtain rfl : cur = b := Option.some.inj hbb
    exact le_of_lt (hcandcur c hc)
  · intro sp hsp b hbmem
    have hk : (p ++ [cur]).length - 1 - n = p.length - n := by
      simp only [List.length_append, List.length_singleton]
      omega
    rw [hk, List.drop_append_of_le_length (Nat.sub_le _ _)] at hbmem
    rcases List.mem_append.mp hbmem with hb1 | hb2
    · exact hinv.out_lt_drop sp hsp b (List.drop_subset_drop_left p hbn hb1)
    · obtain rfl : b = cur := by simpa using hb2
      exact houtcur sp hsp
  · intro sp hsp b hbb
    obtain rfl : cur = b := Option.some.inj hbb
    exact houtcur sp hsp

/-- Step shape 2 ("new candidate"): a state transition that installs a
candidate drawn from the current 3-bar window, on a run of length 2. -/
theorem detInv_newcand {p : List Bar} {cur : Bar} {st : DetState}
    (hpw : List.Pairwise (fun a b => a.t < b.t) (p ++ [cur]))
    (hinv : DetInv p st) (s : MState) (cnd : Option Cand)
    (hrl : st.runLen = 1)
    (hcnd : ∀ c, cnd = some c → ∃ b ∈ window3 st cur, c.time = b.t) :
    DetInv (p ++ [cur])
      { out := st.out, state := s, runColor := some (barColor cur), runLen := 2,
        candidate := cnd, prev1 := some cur, prev2 := st.prev1 } := by
  have houtcur := out_lt_cur hpw hinv
  have hcur := pairwise_concat_lt hpw
  have hwin_mem := @window3_mem p st cur hinv.prev1_eq hinv.prev2_eq
  have hwin_gt := window3_gt_out hpw hinv hrl
  refine ⟨hinv.pw_out, ?_, ?_, ?_, ?_, ?_, ?_, ?_, ?_⟩
  · intro sp hsp
    rw [List.map_append]
    exact List.mem_append_left _ (hinv.mem_out sp hsp)
  · exact (List.getLast?_concat p).symm
  · rw [List.dropLast_concat]
    exact hinv.prev1_eq
  · intro c hc
    obtain ⟨b, hbw, ht⟩ := hcnd c hc
    rw [List.map_append, ht]
    rcases hwin_mem b hbw with hbp | rfl
    · exact List.mem_append_left _ (List.mem_map_of_mem Bar.t hbp)
    · exact List.mem_append_right _ (by simp)
  · intro c hc sp hsp
    obtain ⟨b, hbw, ht⟩ := hcnd c hc
    rw [ht]
    exact hwin_gt b hbw sp hsp
  · intro c hc b0 hb0
    obtain rfl : cur = b0 := Option.some.inj hb0
    obtain ⟨b, hbw, ht⟩ := hcnd c hc
    rw [ht]
    rcases hwin_mem b hbw with hbp | rfl
    · exact le_of_lt (hcur b hbp)
    · exact le_refl _
  · intro sp hsp b hbmem
    have hk : (p ++ [cur]).length - 1 - 2 = p.length - 2 := by
      simp only [List.length_append, List.length_singleton]
      omega
    rw [hk, List.drop_append_of_le_length (Nat.sub_le _ _)] at hbmem
    rcases List.mem_append.mp hbmem with hb1 | hb2
    · refine hinv.out_lt_drop sp hsp b (List.drop_subset_drop_left p (by omega) hb1)
    · obtain rfl : b = cur := by simpa using hb2
      exact houtcur sp hsp
  · intro sp hsp b hbb
    obtain rfl : cur = b := Option.some.inj hbb
    exact houtcur sp hsp

/-- Step shape 3 ("emission"): the pending candidate is confirmed and
appended to the output, and the run length is reset to 0. -/
theorem detInv_emit {p : List Bar} {cur : Bar} {st : DetState}
    (hpw : List.Pairwise (fun a b => a.t < b.t) (p ++ [cur]))
    (hinv : DetInv p st) (s : MState) (knd : SKind) (cand : Cand)
    (hc : st.candidate = some cand) :
    DetInv (p ++ [cur])
      { out := st.out ++ [⟨knd, cand.time, cand.price⟩], state := s,
        runColor := some (barColor cur), runLen := 0, candidate := none,
        prev1 := some cur, prev2 := st.prev1 } := by
  have houtcur := out_lt_cur hpw hinv
  have hcandcur := cand_lt_cur hpw hinv cand hc
  refine ⟨?_, ?_, ?_, ?_, ?_, ?_, ?_, ?_, ?_⟩
  · rw [List.map_append]
    rw [List.pairwise_append]
    refine ⟨hinv.pw_out, by simp, ?_⟩
    intro a ha b hb
    rw [List.mem_map] at ha
    obtain ⟨sp, hsp, rfl⟩ := ha
    obtain rfl : b = cand.time := by simpa using hb
    exact hinv.cand_gt cand hc sp hsp
  · intro sp hsp
    rcases List.mem_append.mp hsp with hs1 | hs2
    · rw [List.map_append]
      exact List.mem_append_left _ (hinv.mem_out sp hs1)
    · obtain rfl : sp = ⟨knd, cand.time, cand.price⟩ := by simpa using hs2
      rw [List.map_append]
      exact List.mem_append_left _ (hinv.cand_mem cand hc)
  · exact (List.getLast?_concat p).symm
  · rw [List.dropLast_concat]
    exact hinv.prev1_eq
  · intro c hc0; cases hc0
  · intro c hc0; cases hc0
  · intro c hc0; cases hc0
  · intro sp hsp b hbmem
    have hk : (p ++ [cur]).length - 1 - 0 = p.length := by
      simp only [List.length_append, List.length_singleton]
      omega
    rw [hk] at hbmem
    have hdl : (p ++ [cur]).drop p.length = [cur] := List.drop_left p [cur]
    rw [hdl] at hbmem
    obtain rfl : b = cur := by simpa using hbmem
    rcases List.mem_append.mp hsp with hs1 | hs2
    · exact houtcur sp hs1
    · obtain rfl : sp = ⟨knd, cand.time, cand.price⟩ := by simpa using hs2
      exact hcandcur
  · intro sp hsp b hbb
    obtain rfl : cur = b := Option.some.inj hbb
    rcases List.mem_append.mp hsp with hs1 | hs2
    · exact houtcur sp hs1
    · obtain rfl : sp = ⟨knd, cand.time, cand.price⟩ := by simpa using hs2
      exact hcandcur

/-- One detector step preserves the loop invariant. -/
theorem detInv_step {p : List Bar} {cur : Bar} {st : DetState}
    (hpw : List.Pairwise (fun a b => a.t < b.t) (p ++ [cur]))
    (hinv : DetInv p st) : DetInv (p ++ [cur]) (stepDetect st cur) := by
  unfold stepDetect
  dsimp only
  set n1 := if st.runColor = some (barColor cur) then st.runLen + 1 else 1 with hdef
  have hn1or : n1 = st.runLen + 1 ∨ n1 = 1 := by
    rw [hdef]
    split_ifs <;> simp
  have hbn : p.length - 1 - st.runLen ≤ p.length - n1 := by
    rcases hn1or with h | h <;> omega
  have hrun1 : n1 = 2 → st.runLen = 1 := by
    intro h2
    rcases hn1or with h | h <;> omega
  have hcarry : ∀ c, st.candidate = c → DetInv (p ++ [cur])
      { out := st.out, state := st.state, runColor := some (barColor cur), runLen := n1,
        candidate := c, prev1 := some cur, prev2 := st.prev1 } :=
    fun _ hc => hc ▸ detInv_carry hpw hinv n1 hbn
  cases hcand : st.candidate with
  | none =>
      dsimp only
      split_ifs with hA hB hC hD
      · rw [hA.2.2.1]
        exact detInv_newcand hpw hinv MState.awaitHigh _ (hrun1 hA.2.2.1)
          (fun c hc => find_max_high_time _ c hc)
      · exact hcarry none hcand
      · rw [hC.2.2.1]
        exact detInv_newcand hpw hinv MState.awaitLow _ (hrun1 hC.2.2.1)
          (fun c hc => find_min_low_time _ c hc)
      · exact hcarry none hcand
      · exact hcarry none hcand
  | some cand =>
      dsimp only
      split_ifs with hA hB hg2 hlt hu1 hr2 hu2 hC hD hr2L hgtL hu3 hg2L hu4
      · -- looking_high trigger
        rw [hA.2.2.1]
        exact detInv_newcand hpw hinv MState.awaitHigh _ (hrun1 hA.2.2.1)
          (fun c hc => find_max_high_time _ c hc)
      · -- await_high: confirm a Strong High
        exact detInv_emit hpw hinv MState.lookingLow SKind.strongHigh cand hcand
      · -- await_high, green 2-run: replace by a higher weak high
        rw [hg2.2]
        cases hfm : find_max_high (window3 st cur) with
        | none =>
            rw [hfm] at hu1
            simp only [Option.getD_none] at hu1
            exact absurd hu1 (lt_irrefl cand.price)
        | some r =>
            simp only [Option.getD_some]
            refine detInv_newcand hpw hinv st.state (some r) (hrun1 hg2.2) ?_
            intro c hc
            obtain rfl := Option.some.inj hc
            exact find_max_high_time _ r hfm
      · -- await_high, green 2-run: candidate kept
        exact hcarry (some cand) hcand
      · -- await_high, renewed red 2-run: replace by a higher weak high
        rw [hr2.2]
        cases hfm : find_max_high (window3 st cur) with
        | none =>
            rw [hfm] at hu2
            simp only [Option.getD_none] at hu2
            exact absurd hu2 (lt_irrefl cand.price)
        | some r =>
            simp only [Option.getD_some]
            refine detInv_newcand hpw hinv st.state (some r) (hrun1 hr2.2) ?_
            intro c hc
            obtain rfl := Option.some.inj hc
            exact find_max_high_time _ r hfm
      · -- await_high, renewed red 2-run: candidate kept
        exact hcarry (some cand) hcand
      · -- await_high, no 2-run
        exact hcarry (some cand) hcand
      · -- looking_low trigger
        rw [hC.2.2.1]
        exact detInv_newcand hpw hinv MState.awaitLow _ (hrun1 hC.2.2.1)
          (fun c hc => find_min_low_time _ c hc)
      · -- await_low: confirm a Strong Low
        exact detInv_emit hpw hinv MState.lookingHigh SKind.strongLow cand hcand
      · -- await_low, red 2-run: replace by a lower weak low
        rw [hr2L.2]
        cases hfm : find_min_low (window3 st cur) with
        | none =>
            rw [hfm] at hu3
            simp only [Option.getD_none] at hu3
            exact absurd hu3 (lt_irrefl cand.price)
        | some r =>
            simp only [Option.getD_some]
            refine detInv_newcand hpw hinv st.state (some r) (hrun1 hr2L.2) ?_
            intro c hc
            obtain rfl := Option.some.inj hc
            exact find_min_low_time _ r hfm
      · -- await_low, red 2-run: candidate kept
        exact hcarry (some cand) hcand
      · -- await_low, renewed green 2-run: replace by a lower weak low
        rw [hg2L.2]
        cases hfm : find_min_low (window3 st cur) with
        | none =>
            rw [hfm] at hu4
            simp only [Option.getD_none] at hu4
            exact absurd hu4 (lt_irrefl cand.price)
        | some r =>
            simp only [Option.getD_some]
            refine detInv_newcand hpw hinv st.state (some r) (hrun1 hg2L.2) ?_
            intro c hc
            obtain rfl := Option.some.inj hc
            exact find_min_low_time _ r hfm
      · -- await_low, renewed green 2-run: candidate kept
        exact hcarry (some cand) hcand
      · -- await_low, no 2-run
        exact hcarry (some cand) hcand
      · -- no branch taken
        exact hcarry (some cand) hcand

/-- The loop invariant holds after folding any timestamp-sorted bar
prefix. -/
theorem detInv_run : ∀ p : List Bar, List.Pairwise (fun a b => a.t < b.t) p →
    DetInv p (detect_structure p) := by
  intro p
  induction p using List.reverseRecOn with
  | nil =>
      intro _
      refine ⟨List.Pairwise.nil, ?_, rfl, rfl, ?_, ?_, ?_, ?_, ?_⟩
      · intro sp hsp; cases hsp
      · intro c hc; cases hc
      · intro c hc; cases hc
      · intro c hc; cases hc
      · intro sp hsp; cases hsp
      · intro sp hsp; cases hsp
  | append_singleton l a ih =>
      intro hpw
      have hstep : detect_structure (l ++ [a]) = stepDetect (detect_structure l) a := by
        unfold detect_structure
        rw [List.foldl_concat]
      rw [hstep]
      exact detInv_step hpw (ih (hpw.sublist (List.sublist_append_left l [a])))

/-- C9: for every bar stream with strictly increasing timestamps, the
sequence of structure points emitted by `detect_structure` has strictly
increasing timestamps, and — for every prefix of the stream, i.e. at
every moment of the scan — each emitted point's timestamp equals the
timestamp of one of the bars already processed. -/
theorem detect_structure_emission_times :
    ∀ bars : List Bar, List.Pairwise (fun a b => a.t < b.t) bars →
      List.Pairwise (· < ·) ((detect_structure bars).out.map SPoint.time)
      ∧ ∀ q, q <+: bars → ∀ sp ∈ (detect_structure q).out, sp.time ∈ q.map Bar.t := by
  intro bars hpw
  refine ⟨(detInv_run bars hpw).pw_out, ?_⟩
  intro q hq sp hsp
  exact (detInv_run q (hpw.sublist hq.sublist)).mem_out sp hsp

/-- C9 witness: on the concrete five-bar stream (which emits one Strong
High) the emitted timestamps are strictly increasing and drawn from the
processed bars. -/
theorem detect_structure_emission_times_witness :
    List.Pairwise (· < ·) ((detect_structure sampleBars).out.map SPoint.time)
    ∧ ∀ sp ∈ (detect_structure sampleBars).out, sp.time ∈ sampleBars.map Bar.t :=
  ⟨(detect_structure_emission_times sampleBars (by decide)).1,
   (detect_structure_emission_times sampleBars (by decide)).2 sampleBars
     (List.prefix_refl sampleBars)⟩
